import Mathlib

/-
Verification development for the document-bundling tool in
`extract_docx.py`.  Python strings are modelled as lists of characters,
file contents read from disk as lists of bytes, and the third-party
parsing libraries (python-docx, pypdf/PyPDF2, python-pptx) as an
abstract environment recording whether each library is importable and
what parsing a given path yields.
-/

set_option autoImplicit false
set_option maxRecDepth 8192

/-- Python strings are modelled as lists of characters. -/
abbrev Str := List Char

/-- The whitespace characters removed by str.strip with no argument
(space, tab, newline, carriage return, vertical tab, form feed). -/
def isPySpace (c : Char) : Bool :=
  c = ' ' || c = '\t' || c = '\n' || c = '\r' || c = Char.ofNat 11 || c = Char.ofNat 12

/-- Remove leading whitespace, as Python str.lstrip. -/
def stripLeft (s : Str) : Str := s.dropWhile isPySpace

/-- Remove trailing whitespace, as Python str.rstrip, written as a
front-first structural recursion. -/
def stripRight : Str → Str
  | [] => []
  | c :: r =>
    let t := stripRight r
    if t = [] && isPySpace c then [] else c :: t

/-- Python str.strip: remove whitespace from both ends. -/
def pyStrip (s : Str) : Str := stripRight (stripLeft s)

/-- Python sep.join over a list of strings. -/
def joinSep (sep : Str) : List Str → Str
  | [] => []
  | [x] => x
  | x :: y :: t => x ++ sep ++ joinSep sep (y :: t)

/-- Newline join, Python str.join with separator backslash-n. -/
def joinNl (xs : List Str) : Str := joinSep [ '\n' ] xs

/-- Split a string at newline characters; the result always has one
more segment than the number of newlines. -/
def splitNl : Str → List Str
  | [] => [[]]
  | c :: r =>
    if c = '\n' then [] :: splitNl r
    else
      match splitNl r with
      | [] => [[c]]
      | h :: t => (c :: h) :: t

/-- ASCII lower-casing of one character, as str.lower acts on ASCII. -/
def lowerChar (c : Char) : Char :=
  if 'A' ≤ c ∧ c ≤ 'Z' then Char.ofNat (c.toNat + 32) else c

/-- ASCII lower-casing of a string, Python str.lower. -/
def lowerStr (s : Str) : Str := s.map lowerChar

/-- Whether pat occurs as a contiguous subsequence of s. -/
def containsSeq (pat s : Str) : Bool :=
  (List.range (s.length + 1)).any (fun i => ((s.drop i).take pat.length) == pat)

/-- Decimal digit character. -/
def digitChar (n : Nat) : Char := Char.ofNat (48 + n)

/-- Decimal rendering of a natural number, with fuel. -/
def natToStrAux : Nat → Nat → Str
  | 0, _ => []
  | fuel + 1, n => if n < 10 then [digitChar n] else natToStrAux fuel (n / 10) ++ [digitChar (n % 10)]

/-- Decimal rendering of a natural number, as Python str formatting. -/
def natToStr (n : Nat) : Str := natToStrAux (n + 1) n

/-- Index of the last dot in a name, if any (Python str.rfind). -/
def lastDotIdx (s : Str) : Option Nat :=
  ((s.enum.filter (fun p => p.2 == '.')).map (fun p => p.1)).getLast?

/-- Python pathlib suffix of a file name: the substring from the last
dot when that dot is neither the first nor the last character,
otherwise the empty string. -/
def pySuffix (s : Str) : Str :=
  match lastDotIdx s with
  | none => []
  | some i => if 0 < i ∧ i < s.length - 1 then s.drop i else []

/-- Whether a byte is a UTF-8 continuation byte. -/
def utf8Cont (b : Nat) : Bool := 0x80 ≤ b && b ≤ 0xBF

/-- Scalar value of a two-byte UTF-8 sequence. -/
def utf8Val2 (b1 b2 : Nat) : Nat := (b1 - 0xC0) * 64 + (b2 - 0x80)

/-- Scalar value of a three-byte UTF-8 sequence. -/
def utf8Val3 (b1 b2 b3 : Nat) : Nat := (b1 - 0xE0) * 4096 + (b2 - 0x80) * 64 + (b3 - 0x80)

/-- Scalar value of a four-byte UTF-8 sequence. -/
def utf8Val4 (b1 b2 b3 b4 : Nat) : Nat :=
  (b1 - 0xF0) * 262144 + (b2 - 0x80) * 4096 + (b3 - 0x80) * 64 + (b4 - 0x80)

/-- Strict UTF-8 decoding with fuel, rejecting invalid sequences,
overlong encodings and surrogates, as Python bytes.decode("utf-8"). -/
def utf8DecodeStrictAux : Nat → List Nat → Option Str
  | _, [] => some []
  | 0, _ :: _ => none
  | fuel + 1, b :: bs =>
    if b < 0x80 then (utf8DecodeStrictAux fuel bs).map (fun r => Char.ofNat b :: r)
    else if 0xC2 ≤ b && b ≤ 0xDF then
      match bs with
      | b2 :: bs2 =>
        if utf8Cont b2 then (utf8DecodeStrictAux fuel bs2).map (fun r => Char.ofNat (utf8Val2 b b2) :: r)
        else none
      | [] => none
    else if b = 0xE0 then
      match bs with
      | b2 :: b3 :: bs3 =>
        if (0xA0 ≤ b2 && b2 ≤ 0xBF) && utf8Cont b3 then
          (utf8DecodeStrictAux fuel bs3).map (fun r => Char.ofNat (utf8Val3 b b2 b3) :: r)
        else none
      | _ => none
    else if 0xE1 ≤ b && b ≤ 0xEC || 0xEE ≤ b && b ≤ 0xEF then
      match bs with
      | b2 :: b3 :: bs3 =>
        if utf8Cont b2 && utf8Cont b3 then
          (utf8DecodeStrictAux fuel bs3).map (fun r => Char.ofNat (utf8Val3 b b2 b3) :: r)
        else none
      | _ => none
    else if b = 0xED then
      match bs with
      | b2 :: b3 :: bs3 =>
        if (0x80 ≤ b2 && b2 ≤ 0x9F) && utf8Cont b3 then
          (utf8DecodeStrictAux fuel bs3).map (fun r => Char.ofNat (utf8Val3 b b2 b3) :: r)
        else none
      | _ => none
    else if b = 0xF0 then
      match bs with
      | b2 :: b3 :: b4 :: bs4 =>
        if (0x90 ≤ b2 && b2 ≤ 0xBF) && utf8Cont b3 && utf8Cont b4 then
          (utf8DecodeStrictAux fuel bs4).map (fun r => Char.ofNat (utf8Val4 b b2 b3 b4) :: r)
        else none
      | _ => none
    else if 0xF1 ≤ b && b ≤ 0xF3 then
      match bs with
      | b2 :: b3 :: b4 :: bs4 =>
        if utf8Cont b2 && utf8Cont b3 && utf8Cont b4 then
          (utf8DecodeStrictAux fuel bs4).map (fun r => Char.ofNat (utf8Val4 b b2 b3 b4) :: r)
        else none
      | _ => none
    else if b = 0xF4 then
      match bs with
      | b2 :: b3 :: b4 :: bs4 =>
        if (0x80 ≤ b2 && b2 ≤ 0x8F) && utf8Cont b3 && utf8Cont b4 then
          (utf8DecodeStrictAux fuel bs4).map (fun r => Char.ofNat (utf8Val4 b b2 b3 b4) :: r)
        else none
      | _ => none
    else none

/-- Strict UTF-8 decoding: none on any invalid byte sequence. -/
def utf8DecodeStrict (bs : List Nat) : Option Str := utf8DecodeStrictAux bs.length bs

/-- Lenient UTF-8 decoding with fuel: invalid bytes are skipped rather
than reported, as Python bytes.decode("utf-8", errors="ignore"). -/
def utf8DecodeIgnoreAux : Nat → List Nat → Str
  | _, [] => []
  | 0, _ :: _ => []
  | fuel + 1, b :: bs =>
    if b < 0x80 then Char.ofNat b :: utf8DecodeIgnoreAux fuel bs
    else if 0xC2 ≤ b && b ≤ 0xDF then
      match bs with
      | b2 :: bs2 =>
        if utf8Cont b2 then Char.ofNat (utf8Val2 b b2) :: utf8DecodeIgnoreAux fuel bs2
        else utf8DecodeIgnoreAux fuel bs
      | [] => []
    else if b = 0xE0 then
      match bs with
      | b2 :: b3 :: bs3 =>
        if (0xA0 ≤ b2 && b2 ≤ 0xBF) && utf8Cont b3 then
          Char.ofNat (utf8Val3 b b2 b3) :: utf8DecodeIgnoreAux fuel bs3
        else utf8DecodeIgnoreAux fuel bs
      | _ => utf8DecodeIgnoreAux fuel bs
    else if 0xE1 ≤ b && b ≤ 0xEC || 0xEE ≤ b && b ≤ 0xEF then
      match bs with
      | b2 :: b3 :: bs3 =>
        if utf8Cont b2 && utf8Cont b3 then
          Char.ofNat (utf8Val3 b b2 b3) :: utf8DecodeIgnoreAux fuel bs3
        else utf8DecodeIgnoreAux fuel bs
      | _ => utf8DecodeIgnoreAux fuel bs
    else if b = 0xED then
      match bs with
      | b2 :: b3 :: bs3 =>
        if (0x80 ≤ b2 && b2 ≤ 0x9F) && utf8Cont b3 then
          Char.ofNat (utf8Val3 b b2 b3) :: utf8DecodeIgnoreAux fuel bs3
        else utf8DecodeIgnoreAux fuel bs
      | _ => utf8DecodeIgnoreAux fuel bs
    else if b = 0xF0 then
      match bs with
      | b2 :: b3 :: b4 :: bs4 =>
        if (0x90 ≤ b2 && b2 ≤ 0xBF) && utf8Cont b3 && utf8Cont b4 then
          Char.ofNat (utf8Val4 b b2 b3 b4) :: utf8DecodeIgnoreAux fuel bs4
        else utf8DecodeIgnoreAux fuel bs
      | _ => utf8DecodeIgnoreAux fuel bs
    else if 0xF1 ≤ b && b ≤ 0xF3 then
      match bs with
      | b2 :: b3 :: b4 :: bs4 =>
        if utf8Cont b2 && utf8Cont b3 && utf8Cont b4 then
          Char.ofNat (utf8Val4 b b2 b3 b4) :: utf8DecodeIgnoreAux fuel bs4
        else utf8DecodeIgnoreAux fuel bs
      | _ => utf8DecodeIgnoreAux fuel bs
    else if b = 0xF4 then
      match bs with
      | b2 :: b3 :: b4 :: bs4 =>
        if (0x80 ≤ b2 && b2 ≤ 0x8F) && utf8Cont b3 && utf8Cont b4 then
          Char.ofNat (utf8Val4 b b2 b3 b4) :: utf8DecodeIgnoreAux fuel bs4
        else utf8DecodeIgnoreAux fuel bs
      | _ => utf8DecodeIgnoreAux fuel bs
    else utf8DecodeIgnoreAux fuel bs

/-- Lenient UTF-8 decoding: drop undecodable bytes, never fail. -/
def utf8DecodeIgnore (bs : List Nat) : Str := utf8DecodeIgnoreAux bs.length bs

/-- Python exception values relevant to the tool.  A RuntimeError may
carry, as its cause, the name of the module whose import failed (the
`raise ... from exc` in the source); exceptions raised inside the
third-party parsing libraries are modelled by their class name and
message. -/
inductive PyExc where
  | runtimeError (msg : Str) (causeModule : Option Str)
  | libException (excName : Str) (msg : Str)
  | systemExit (msg : Str)
deriving DecidableEq

/-- Whether an exception is a RuntimeError raised by the tool itself
with another failure recorded as its cause. -/
def PyExc.isWrapper : PyExc → Bool
  | .runtimeError _ (some _) => true
  | _ => false

/-- A docx document as surfaced by python-docx: a list of paragraph
texts and a list of tables, each table a list of rows, each row a list
of cell texts. -/
structure DocxDoc where
  paragraphs : List Str
  tables : List (List (List Str))
deriving DecidableEq

/-- A pptx shape as surfaced by python-pptx: whether it has a text
attribute, and its text. -/
structure PShape where
  hasText : Bool
  text : Str
deriving DecidableEq

/-- A pptx slide is its list of shapes. -/
abbrev PSlide := List PShape

/-- A direct entry of the scanned source directory. -/
structure Entry where
  name : Str
  isDir : Bool
deriving DecidableEq

/-- The world outside the program: which optional parsing libraries
are importable, what parsing a given path yields in each library, the
raw bytes of readable files, whether the source directory exists, its
sorted listing, and the current timestamp. -/
structure Env where
  docxAvailable : Bool
  pypdfAvailable : Bool
  pypdf2Available : Bool
  pptxAvailable : Bool
  parseDocx : Str → Except PyExc DocxDoc
  parsePdf : Str → Except PyExc (List (Option Str))
  parsePptx : Str → Except PyExc (List PSlide)
  fs : Str → Option (List Nat)
  dirExists : Bool
  listing : List Entry
  now : Str

/-- Message of the RuntimeError raised when python-docx is missing. -/
def docxDepMsg : Str :=
  "python-docx is required to read .docx files. Install it via pip install python-docx.".data

/-- Message of the RuntimeError raised when neither pypdf nor PyPDF2 is available. -/
def pdfDepMsg : Str :=
  "pypdf or PyPDF2 is required to read .pdf files. Install via pip install pypdf.".data

/-- Message of the RuntimeError raised when python-pptx is missing. -/
def pptxDepMsg : Str :=
  "python-pptx is required to read .pptx files. Install it via pip install python-pptx.".data

/-- Paragraph pass of read_docx: strip each paragraph text and keep
the non-empty ones, in order. -/
def docxParas : List Str → List Str
  | [] => []
  | p :: rest =>
    let t := pyStrip p
    if t = [] then docxParas rest else t :: docxParas rest

/-- Cell comprehension of read_docx: the stripped non-empty cell texts
of one row. -/
def docxRowCells (row : List Str) : List Str :=
  row.filterMap (fun c => let t := pyStrip c; if t = [] then none else some t)

/-- Row pass of read_docx over one table: rows whose cells are all
empty after stripping are skipped, other rows become one joined line. -/
def docxRows : List (List Str) → List Str
  | [] => []
  | r :: rest =>
    let cells := docxRowCells r
    if cells = [] then docxRows rest
    else joinSep " | ".data cells :: docxRows rest

/-- Table pass of read_docx: all tables in order. -/
def docxTablePieces : List (List (List Str)) → List Str
  | [] => []
  | t :: rest => docxRows t ++ docxTablePieces rest

/-- Pure extraction performed by read_docx once the document is
parsed: paragraph pieces, then table pieces, joined by newlines. -/
def docxText (d : DocxDoc) : Str :=
  joinNl (docxParas d.paragraphs ++ docxTablePieces d.tables)

/-- read_docx: raise RuntimeError (from the ModuleNotFoundError) when
python-docx is missing, propagate the parse failure of Document
unchanged, and otherwise extract the text. -/
def read_docx (env : Env) (p : Str) : Except PyExc Str :=
  if env.docxAvailable = false then
    Except.error (PyExc.runtimeError docxDepMsg (some "docx".data))
  else
    match env.parseDocx p with
    | Except.error e => Except.error e
    | Except.ok d => Except.ok (docxText d)

/-- Page pass of read_pdf: treat a missing per-page text as the empty
string, strip, and keep non-empty pages. -/
def pdfPages : List (Option Str) → List Str
  | [] => []
  | o :: rest =>
    let t := pyStrip (o.getD [])
    if t = [] then pdfPages rest else t :: pdfPages rest

/-- Pure extraction performed by read_pdf: non-empty page texts joined
by blank lines. -/
def pdfText (pages : List (Option Str)) : Str :=
  joinSep [ '\n', '\n' ] (pdfPages pages)

/-- read_pdf: raise RuntimeError when neither pypdf nor PyPDF2 is
importable, propagate the parse failure unchanged, otherwise extract. -/
def read_pdf (env : Env) (p : Str) : Except PyExc Str :=
  if env.pypdfAvailable = false ∧ env.pypdf2Available = false then
    Except.error (PyExc.runtimeError pdfDepMsg (some "PyPDF2".data))
  else
    match env.parsePdf p with
    | Except.error e => Except.error e
    | Except.ok pages => Except.ok (pdfText pages)

/-- Shape pass of read_pptx over one slide: stripped non-empty texts
of the shapes that have a text attribute. -/
def slideFrags (s : PSlide) : List Str :=
  s.filterMap (fun sh =>
    if sh.hasText then
      let t := pyStrip sh.text
      if t = [] then none else some t
    else none)

/-- Header plus fragments of one emitted slide block. -/
def slideBlock (i : Nat) (frags : List Str) : Str :=
  "Slide ".data ++ natToStr i ++ [ ':', '\n' ] ++ joinNl frags

/-- Slide loop of read_pptx, carrying the 1-based index of enumerate:
slides with no text are skipped but still advance the index. -/
def pptxBlocks : Nat → List PSlide → List Str
  | _, [] => []
  | i, s :: rest =>
    let frags := slideFrags s
    if frags = [] then pptxBlocks (i + 1) rest
    else slideBlock i frags :: pptxBlocks (i + 1) rest

/-- Pure extraction performed by read_pptx: slide blocks joined by
blank lines, slide numbering starting at 1. -/
def pptxText (slides : List PSlide) : Str :=
  joinSep [ '\n', '\n' ] (pptxBlocks 1 slides)

/-- read_pptx: raise RuntimeError when python-pptx is missing,
propagate the parse failure unchanged, otherwise extract. -/
def read_pptx (env : Env) (p : Str) : Except PyExc Str :=
  if env.pptxAvailable = false then
    Except.error (PyExc.runtimeError pptxDepMsg (some "pptx".data))
  else
    match env.parsePptx p with
    | Except.error e => Except.error e
    | Except.ok slides => Except.ok (pptxText slides)

/-- read_plain_text: read the file bytes, decode leniently as UTF-8
dropping undecodable bytes, and strip surrounding whitespace. -/
def read_plain_text (env : Env) (p : Str) : Except PyExc Str :=
  match env.fs p with
  | none => Except.error (PyExc.libException "FileNotFoundError".data p)
  | some bs => Except.ok (pyStrip (utf8DecodeIgnore bs))

/-- The extraction functions dispatched to by the READERS table. -/
inductive ReaderKind where
  | docx
  | pdf
  | pptx
  | plain
deriving DecidableEq

/-- Run the extraction function named by a ReaderKind. -/
def runReader : ReaderKind → Env → Str → Except PyExc Str
  | .docx, env, p => read_docx env p
  | .pdf, env, p => read_pdf env p
  | .pptx, env, p => read_pptx env p
  | .plain, env, p => read_plain_text env p

/-- The READERS dispatch table, a finite map from lower-case extension
to extraction function; READERS ext models READERS.get(ext). -/
def READERS (ext : Str) : Option ReaderKind :=
  if ext = ".docx".data then some ReaderKind.docx
  else if ext = ".pdf".data then some ReaderKind.pdf
  else if ext = ".pptx".data then some ReaderKind.pptx
  else if ext = ".txt".data then some ReaderKind.plain
  else if ext = ".md".data then some ReaderKind.plain
  else none

/-- The extensions recognized by the dispatch table. -/
def recognizedExts : List Str :=
  [ ".docx".data, ".pdf".data, ".pptx".data, ".txt".data, ".md".data ]

/-- sanitize_heading: replace every backtick by a right single
quotation mark, Python str.replace with a one-character pattern. -/
def sanitize_heading (s : Str) : Str :=
  s.map (fun c => if c = Char.ofNat 96 then Char.ofNat 8217 else c)

/-- load_site_brief: empty string when the path does not exist,
otherwise the strictly UTF-8 decoded content stripped of surrounding
whitespace; undecodable content raises UnicodeDecodeError. -/
def load_site_brief (env : Env) (p : Str) : Except PyExc Str :=
  match env.fs p with
  | none => Except.ok []
  | some bs =>
    match utf8DecodeStrict bs with
    | none => Except.error (PyExc.libException "UnicodeDecodeError".data "invalid utf-8".data)
    | some s => Except.ok (pyStrip s)

/-- gather_sources over the sorted directory listing: directories are
skipped; an entry with no registered reader is unsupported; otherwise
the reader runs, its output is re-stripped into gathered on success,
and any raised exception is recorded in failures. -/
def gather_sources (env : Env) : List Entry → List (Str × Str) × List Str × List (Str × PyExc)
  | [] => ([], [], [])
  | e :: rest =>
    let r := gather_sources env rest
    if e.isDir then r
    else
      match READERS (lowerStr (pySuffix e.name)) with
      | none => (r.1, e.name :: r.2.1, r.2.2)
      | some rk =>
        match runReader rk env e.name with
        | Except.ok t => ((e.name, pyStrip t) :: r.1, r.2.1, r.2.2)
        | Except.error exc => (r.1, r.2.1, (e.name, exc) :: r.2.2)

/-- Title line of the generated bundle. -/
def titleLine : Str := "# Website Request Bundle".data

/-- Label in front of the timestamp on the second bundle line. -/
def generatedLabel : Str := "Generated: ".data

/-- Brief-section lines of build_bundle: a YAML fenced block when the
brief text is non-empty, otherwise a placeholder notice; both branches
end with an empty line. -/
def briefLines (b : Str) : List Str :=
  if b = [] then
    [ "## Site Brief".data,
      "_No site brief found. Fill out `request/site-brief.yaml` to capture your requirements._".data,
      [] ]
  else
    [ "## Site Brief (`request/site-brief.yaml`)".data,
      "```yaml".data,
      b,
      "```".data,
      [] ]

/-- Per-entry lines of the Source Material section: a heading with the
sanitized display name, then a fenced text block or a placeholder for
empty text, then an empty line. -/
def srcEntriesLines : List (Str × Str) → List Str
  | [] => []
  | (p, t) :: rest =>
    ( "### ".data ++ sanitize_heading p) ::
      (if t = [] then [ "_No extractable text content found._".data ]
       else [ "```text".data, t, "```".data ]) ++ ([] :: srcEntriesLines rest)

/-- Source Material section of build_bundle: a placeholder when no
sources were gathered, otherwise one block per entry. -/
def srcSectionLines (s : List (Str × Str)) : List Str :=
  "## Source Material".data ::
    (if s = [] then [ "_No supported source files discovered in the `source/` directory._".data ]
     else srcEntriesLines s)

/-- All lines appended by build_bundle, in order: title, timestamp
line, empty line, brief section, source section. -/
def bundleLines (ts b : Str) (s : List (Str × Str)) : List Str :=
  titleLine :: (generatedLabel ++ ts) :: [] :: (briefLines b ++ srcSectionLines s)

/-- build_bundle: join all lines with newlines, strip surrounding
whitespace, and append a single trailing newline.  The timestamp that
the source obtains from datetime.now is passed in as ts. -/
def build_bundle (ts b : Str) (s : List (Str × Str)) : Str :=
  pyStrip (joinNl (bundleLines ts b s)) ++ [ '\n' ]

/-- The orchestration of main after argument parsing: abort with
SystemExit when the source directory is missing, load the brief
(propagating any exception it raises), gather the sources, and build
the bundle; the returned triple and lists mirror what main writes and
prints. -/
def mainRun (env : Env) (requestPath : Str) : Except PyExc (Str × List Str × List (Str × PyExc)) :=
  if env.dirExists = false then
    Except.error (PyExc.systemExit "Source directory not found".data)
  else
    match load_site_brief env requestPath with
    | Except.error e => Except.error e
    | Except.ok brief =>
      let r := gather_sources env env.listing
      Except.ok (build_bundle env.now brief r.1, r.2.1, r.2.2)

/-- Dropping a satisfying-free head leaves dropWhile unchanged. -/
theorem dropWhile_self (p : Char → Bool) (l : Str) :
    (l.dropWhile p).dropWhile p = l.dropWhile p := by
  induction l with
  | nil => rfl
  | cons a t ih =>
    by_cases h : p a = true
    · simp [List.dropWhile_cons, h, ih]
    · simp [List.dropWhile_cons, h]

/-- stripLeft is idempotent. -/
theorem stripLeft_idem (s : Str) : stripLeft (stripLeft s) = stripLeft s := by
  simp [stripLeft, dropWhile_self]

/-- Unfolding equation for stripRight on a cons cell. -/
theorem stripRight_cons (c : Char) (r : Str) :
    stripRight (c :: r) = if stripRight r = [] ∧ isPySpace c = true then [] else c :: stripRight r := by
  simp [stripRight]

/-- stripRight is idempotent. -/
theorem stripRight_idem (s : Str) : stripRight (stripRight s) = stripRight s := by
  induction s with
  | nil => rfl
  | cons c r ih =>
    by_cases h : stripRight r = [] ∧ isPySpace c = true
    · simp [stripRight_cons, h]
      rfl
    · rw [stripRight_cons, if_neg h, stripRight_cons, ih, if_neg h]

/-- A non-whitespace head is kept by stripLeft. -/
theorem stripLeft_cons_of_not {c : Char} (s : Str) (h : isPySpace c = false) :
    stripLeft (c :: s) = c :: s := by
  simp [stripLeft, List.dropWhile_cons, h]

/-- stripLeft and stripRight commute. -/
theorem stripLeft_stripRight_comm (s : Str) :
    stripLeft (stripRight s) = stripRight (stripLeft s) := by
  induction s with
  | nil => rfl
  | cons c r ih =>
    by_cases hc : isPySpace c = true
    · have hl : stripLeft (c :: r) = stripLeft r := by
        simp [stripLeft, List.dropWhile_cons, hc]
      by_cases hr : stripRight r = []
      · rw [stripRight_cons, if_pos ⟨hr, hc⟩, hl, ← ih, hr]
      · rw [stripRight_cons, if_neg (by simp [hr]), hl, ← ih]
        have hcons : stripLeft (c :: stripRight r) = stripLeft (stripRight r) := by
          simp [stripLeft, List.dropWhile_cons, hc]
        rw [hcons]
    · have hc' : isPySpace c = false := by simp [hc]
      rw [stripRight_cons, if_neg (by simp [hc]), stripLeft_cons_of_not _ hc',
        stripLeft_cons_of_not _ hc', stripRight_cons, if_neg (by simp [hc])]

/-- pyStrip is idempotent: stripped text strips to itself. -/
theorem pyStrip_idem (s : Str) : pyStrip (pyStrip s) = pyStrip s := by
  show stripRight (stripLeft (stripRight (stripLeft s))) = stripRight (stripLeft s)
  rw [stripLeft_stripRight_comm, stripLeft_idem, stripRight_idem]

/-- A string holding any non-whitespace character does not strip to
the empty string on the right. -/
theorem stripRight_ne_nil {b : Str} (h : ∃ c ∈ b, isPySpace c = false) :
    ¬ stripRight b = [] := by
  induction b with
  | nil => rcases h with ⟨c, hc, _⟩; cases hc
  | cons a t ih =>
    rcases h with ⟨c, hc, hcs⟩
    rcases List.mem_cons.mp hc with rfl | hmem
    · rw [stripRight_cons]
      by_cases hcond : stripRight t = [] ∧ isPySpace c = true
      · rw [hcond.2] at hcs; cases hcs
      · rw [if_neg hcond]; simp
    · rw [stripRight_cons]
      have ht := ih ⟨c, hmem, hcs⟩
      rw [if_neg (by intro hcond; exact ht hcond.1)]
      simp

/-- stripRight only acts on the part of a string after its last
non-whitespace character. -/
theorem stripRight_append (a : Str) {b : Str} (h : ∃ c ∈ b, isPySpace c = false) :
    stripRight (a ++ b) = a ++ stripRight b := by
  induction a with
  | nil => simp
  | cons c a' ih =>
    rw [List.cons_append, stripRight_cons, ih]
    have hne : ¬ (a' ++ stripRight b = [] ∧ isPySpace c = true) := by
      intro hcond
      exact stripRight_ne_nil h (List.append_eq_nil.mp hcond.1).2
    rw [if_neg hne, List.cons_append]

/-- Unfolding equation of joinSep with at least two elements. -/
theorem joinSep_cons₂ (sep x y : Str) (t : List Str) :
    joinSep sep (x :: y :: t) = x ++ sep ++ joinSep sep (y :: t) := by
  simp [joinSep]

/-- Every character of every joined string occurs in the join. -/
theorem mem_joinSep {c : Char} {l : Str} (sep : Str) :
    ∀ (L : List Str), l ∈ L → c ∈ l → c ∈ joinSep sep L := by
  intro L
  induction L with
  | nil => intro h; cases h
  | cons x t ih =>
    intro hl hc
    cases t with
    | nil =>
      rcases List.mem_cons.mp hl with rfl | h
      · simpa [joinSep] using hc
      · cases h
    | cons y t' =>
      rw [joinSep_cons₂]
      rcases List.mem_cons.mp hl with rfl | h
      · exact List.mem_append_left _ (List.mem_append_left _ hc)
      · exact List.mem_append_right _ (ih h hc)

/-- Splitting after a newline-free leading segment peels that segment
off as the first line. -/
theorem splitNl_append_nl {a : Str} (b : Str) (h : ∀ c ∈ a, ¬ c = '\n') :
    splitNl (a ++ '\n' :: b) = a :: splitNl b := by
  induction a with
  | nil => simp [splitNl]
  | cons c a' ih =>
    have hc : ¬ c = '\n' := h c (List.mem_cons_self c a')
    have ih' := ih (fun d hd => h d (List.mem_cons_of_mem c hd))
    rw [List.cons_append]
    show splitNl (c :: (a' ++ '\n' :: b)) = (c :: a') :: splitNl b
    rw [splitNl]
    simp only [if_neg hc, ih']

/-- C1: gather_sources partitions the non-directory entries of the
directory listing: the paths recorded in gathered, unsupported and
failures are, taken together, a permutation of the names of the
non-directory entries, and when the listing has no duplicate names no
path occurs in more than one of the three collections. -/
theorem c1_gather_partition (env : Env) (es : List Entry) :
    ((gather_sources env es).1.map Prod.fst ++ (gather_sources env es).2.1 ++
        (gather_sources env es).2.2.map Prod.fst).Perm
      ((es.filter (fun e => !e.isDir)).map Entry.name) ∧
    (((es.filter (fun e => !e.isDir)).map Entry.name).Nodup →
      ∀ nm : Str,
        ¬ (nm ∈ (gather_sources env es).1.map Prod.fst ∧ nm ∈ (gather_sources env es).2.1) ∧
        ¬ (nm ∈ (gather_sources env es).1.map Prod.fst ∧
            nm ∈ (gather_sources env es).2.2.map Prod.fst) ∧
        ¬ (nm ∈ (gather_sources env es).2.1 ∧ nm ∈ (gather_sources env es).2.2.map Prod.fst)) := by
  have hperm : ∀ es : List Entry,
      ((gather_sources env es).1.map Prod.fst ++ (gather_sources env es).2.1 ++
          (gather_sources env es).2.2.map Prod.fst).Perm
        ((es.filter (fun e => !e.isDir)).map Entry.name) := by
    intro es
    induction es with
    | nil => simp [gather_sources]
    | cons e rest ih =>
      cases he : e.isDir with
      | true => simpa [gather_sources, he] using ih
      | false =>
        have hfil : ((e :: rest).filter (fun e => !e.isDir)).map Entry.name =
            e.name :: ((rest.filter (fun e => !e.isDir)).map Entry.name) := by
          simp [List.filter_cons, he]
        rw [hfil]
        cases hr : READERS (lowerStr (pySuffix e.name)) with
        | none =>
          simp only [gather_sources, he, hr]
          refine List.Perm.trans ?_ (List.Perm.cons e.name ih)
          exact List.Perm.append_right
            ((gather_sources env rest).2.2.map Prod.fst)
            (@List.perm_middle Str e.name
              ((gather_sources env rest).1.map Prod.fst)
              ((gather_sources env rest).2.1))
        | some rk =>
          cases hrun : runReader rk env e.name with
          | ok t =>
            simp only [gather_sources, he, hr, hrun]
            exact List.Perm.cons e.name ih
          | error exc =>
            simp only [gather_sources, he, hr, hrun]
            refine List.Perm.trans ?_ (List.Perm.cons e.name ih)
            have := @List.perm_middle Str e.name
              ((gather_sources env rest).1.map Prod.fst ++ (gather_sources env rest).2.1)
              ((gather_sources env rest).2.2.map Prod.fst)
            simpa [List.append_assoc] using this
  refine ⟨hperm es, ?_⟩
  intro hnd nm
  have hl : ((gather_sources env es).1.map Prod.fst ++ (gather_sources env es).2.1 ++
      (gather_sources env es).2.2.map Prod.fst).Nodup := ((hperm es).nodup_iff).mpr hnd
  rw [List.append_assoc, List.nodup_append] at hl
  rcases hl with ⟨_, hl2, hdisj⟩
  rw [List.nodup_append] at hl2
  rcases hl2 with ⟨_, _, hdisj2⟩
  refine ⟨?_, ?_, ?_⟩
  · rintro ⟨h1, h2⟩; exact hdisj h1 (List.mem_append_left _ h2)
  · rintro ⟨h1, h2⟩; exact hdisj h1 (List.mem_append_right _ h2)
  · rintro ⟨h1, h2⟩; exact hdisj2 h1 h2

/-- C10: every text recorded in the gathered collection is a fixed
point of pyStrip — it has no surrounding whitespace, whichever
extractor produced it, because the gatherer re-strips every output. -/
theorem c10_gathered_stripped (env : Env) (es : List Entry) (p t : Str)
    (h : (p, t) ∈ (gather_sources env es).1) : pyStrip t = t := by
  induction es with
  | nil => cases h
  | cons e rest ih =>
    by_cases he : e.isDir = true
    · rw [show gather_sources env (e :: rest) = gather_sources env rest by
        simp [gather_sources, he]] at h
      exact ih h
    · have he' : e.isDir = false := by simpa using he
      cases hr : READERS (lowerStr (pySuffix e.name)) with
      | none =>
        rw [show (gather_sources env (e :: rest)).1 = (gather_sources env rest).1 by
          simp [gather_sources, he', hr]] at h
        exact ih h
      | some rk =>
        cases hrun : runReader rk env e.name with
        | ok t0 =>
          rw [show (gather_sources env (e :: rest)).1 =
              (e.name, pyStrip t0) :: (gather_sources env rest).1 by
            simp [gather_sources, he', hr, hrun]] at h
          rcases List.mem_cons.mp h with hpair | hmem
          · have : t = pyStrip t0 := congrArg Prod.snd hpair
            rw [this, pyStrip_idem]
          · exact ih hmem
        | error exc =>
          rw [show (gather_sources env (e :: rest)).1 = (gather_sources env rest).1 by
            simp [gather_sources, he', hr, hrun]] at h
          exact ih h

/-- Output the docx claim describes literally: non-empty stripped
paragraphs, then one line for every table row, each row joined from
its non-empty stripped cells. -/
def docxSpecText (d : DocxDoc) : Str :=
  joinNl (((d.paragraphs.map pyStrip).filter (fun t => ¬ t = [])) ++
    d.tables.flatMap (fun t => t.map (fun row => joinSep " | ".data (docxRowCells row))))

/-- A document with one table of two rows, the first row holding only
a whitespace cell. -/
def docxRowDoc : DocxDoc := ⟨[], [ [ [ " ".data ], [ "x".data ] ] ]⟩

/-- C3 counterexample: on a table containing a row whose cells all
strip to empty, read_docx emits no line for that row, while the claim
as stated emits one (empty) line per row, so the outputs differ. -/
theorem c3_docx_counterexample : ¬ docxText docxRowDoc = docxSpecText docxRowDoc := by
  decide

/-- Output of the amended docx claim: rows whose cells all strip to
empty are omitted; every other row yields one joined line. -/
def docxAmendedText (d : DocxDoc) : Str :=
  joinNl (((d.paragraphs.map pyStrip).filter (fun t => ¬ t = [])) ++
    d.tables.flatMap (fun t => t.filterMap (fun row =>
      if docxRowCells row = [] then none else some (joinSep " | ".data (docxRowCells row)))))

/-- The paragraph pass equals the filtered map the claim describes. -/
theorem docxParas_eq (l : List Str) :
    docxParas l = (l.map pyStrip).filter (fun t => ¬ t = []) := by
  induction l with
  | nil => rfl
  | cons p rest ih =>
    by_cases h : pyStrip p = []
    · simp [docxParas, h, ih]
    · simp [docxParas, h, ih]

/-- The row pass over one table equals the filterMap of the amended
claim. -/
theorem docxRows_eq (t : List (List Str)) :
    docxRows t = t.filterMap (fun row =>
      if docxRowCells row = [] then none else some (joinSep " | ".data (docxRowCells row))) := by
  induction t with
  | nil => rfl
  | cons r rest ih =>
    by_cases h : docxRowCells r = []
    · simp [docxRows, h, ih]
    · simp [docxRows, h, ih]

/-- The table pass concatenates the row passes of all tables. -/
theorem docxTablePieces_eq (ts : List (List (List Str))) :
    docxTablePieces ts = ts.flatMap (fun t => t.filterMap (fun row =>
      if docxRowCells row = [] then none else some (joinSep " | ".data (docxRowCells row)))) := by
  induction ts with
  | nil => rfl
  | cons t rest ih => simp [docxTablePieces, ih, docxRows_eq]

/-- C3 amended: the docx extraction is the newline join of the
non-empty stripped paragraphs followed by, for each table, one line
per row with at least one non-empty stripped cell, rows whose cells
all strip to empty being omitted. -/
theorem c3_docx_amended (d : DocxDoc) : docxText d = docxAmendedText d := by
  unfold docxText docxAmendedText
  rw [docxParas_eq, docxTablePieces_eq]

/-- Output the pptx claim describes: walking all slides with their
0-based position i, a slide with at least one non-empty shape text
yields a block headed by its absolute 1-based number i + 1, and
slides with no text are omitted. -/
def pptxSpecText (slides : List PSlide) : Str :=
  joinSep [ '\n', '\n' ]
    (slides.enum.filterMap (fun p =>
      if slideFrags p.2 = [] then none else some (slideBlock (p.1 + 1) (slideFrags p.2))))

/-- The slide loop from index n + 1 matches the filterMap over the
enumeration from n. -/
theorem pptxBlocks_eq (slides : List PSlide) :
    ∀ n : Nat, pptxBlocks (n + 1) slides = (List.enumFrom n slides).filterMap (fun p =>
      if slideFrags p.2 = [] then none else some (slideBlock (p.1 + 1) (slideFrags p.2))) := by
  induction slides with
  | nil => intro n; rfl
  | cons s rest ih =>
    intro n
    by_cases h : slideFrags s = []
    · simp [pptxBlocks, h, List.enumFrom, ih (n + 1)]
    · simp [pptxBlocks, h, List.enumFrom, ih (n + 1)]

/-- C6: the pptx extraction emits one block per slide that has a
shape with non-empty stripped text, headed by the 1-based
position among all slides of the presentation (slides skipped for
having no text still advance the numbering), and omits textless
slides entirely. -/
theorem c6_pptx_numbering (slides : List PSlide) : pptxText slides = pptxSpecText slides := by
  unfold pptxText pptxSpecText
  rw [show slides.enum = List.enumFrom 0 slides from rfl, ← pptxBlocks_eq slides 0]

/-- A world where every parsing library is importable but every parse
raises a library exception, as for a malformed or corrupt file. -/
def envParseFail : Env where
  docxAvailable := true
  pypdfAvailable := true
  pypdf2Available := true
  pptxAvailable := true
  parseDocx := fun _ => Except.error (PyExc.libException "BadZipFile".data "File is not a zip file".data)
  parsePdf := fun _ => Except.error (PyExc.libException "PdfReadError".data "EOF marker not found".data)
  parsePptx := fun _ => Except.error (PyExc.libException "BadZipFile".data "File is not a zip file".data)
  fs := fun _ => none
  dirExists := true
  listing := []
  now := []

/-- C4 counterexample: on a malformed docx file the extractor fails
with the underlying library exception itself — not with any
tool-defined ExtractionError wrapping it: the error that comes back is
the parse failure unchanged, and it wraps nothing. -/
theorem c4_error_counterexample :
    read_docx envParseFail "broken.docx".data =
      Except.error (PyExc.libException "BadZipFile".data "File is not a zip file".data) ∧
    (PyExc.libException "BadZipFile".data "File is not a zip file".data).isWrapper = false :=
  ⟨rfl, rfl⟩

/-- C4 amended: a missing optional dependency makes the extractor fail
with a RuntimeError raised from the ModuleNotFoundError, whose message
names the required package and an install hint; a malformed file makes
the extractor fail by propagating the underlying parse failure
unchanged; and the gatherer catches such an error, records it in
failures, and continues with the remaining entries. -/
theorem c4_error_amended (env : Env) (p : Str) :
    (env.docxAvailable = false →
      read_docx env p = Except.error (PyExc.runtimeError docxDepMsg (some "docx".data)) ∧
      containsSeq "python-docx".data docxDepMsg = true ∧
      containsSeq "pip install python-docx".data docxDepMsg = true) ∧
    (env.pypdfAvailable = false → env.pypdf2Available = false →
      read_pdf env p = Except.error (PyExc.runtimeError pdfDepMsg (some "PyPDF2".data)) ∧
      containsSeq "pypdf".data pdfDepMsg = true ∧
      containsSeq "pip install pypdf".data pdfDepMsg = true) ∧
    (env.pptxAvailable = false →
      read_pptx env p = Except.error (PyExc.runtimeError pptxDepMsg (some "pptx".data)) ∧
      containsSeq "python-pptx".data pptxDepMsg = true ∧
      containsSeq "pip install python-pptx".data pptxDepMsg = true) ∧
    (∀ e : PyExc, env.docxAvailable = true → env.parseDocx p = Except.error e →
      read_docx env p = Except.error e) ∧
    (∀ e : PyExc, (env.pypdfAvailable = true ∨ env.pypdf2Available = true) →
      env.parsePdf p = Except.error e → read_pdf env p = Except.error e) ∧
    (∀ e : PyExc, env.pptxAvailable = true → env.parsePptx p = Except.error e →
      read_pptx env p = Except.error e) ∧
    (∀ (ent : Entry) (es : List Entry) (rk : ReaderKind) (e : PyExc),
      ent.isDir = false → READERS (lowerStr (pySuffix ent.name)) = some rk →
      runReader rk env ent.name = Except.error e →
      gather_sources env (ent :: es) =
        ((gather_sources env es).1, (gather_sources env es).2.1,
          (ent.name, e) :: (gather_sources env es).2.2)) := by
  refine ⟨?_, ?_, ?_, ?_, ?_, ?_, ?_⟩
  · intro h
    exact ⟨by simp [read_docx, h], by decide, by decide⟩
  · intro h1 h2
    exact ⟨by simp [read_pdf, h1, h2], by decide, by decide⟩
  · intro h
    exact ⟨by simp [read_pptx, h], by decide, by decide⟩
  · intro e ha he
    simp [read_docx, ha, he]
  · intro e ha he
    rcases ha with h | h
    · simp [read_pdf, h, he]
    · simp [read_pdf, h, he]
  · intro e ha he
    simp [read_pptx, ha, he]
  · intro ent es rk e h1 h2 h3
    simp [gather_sources, h1, h2, h3]

/-- Every gathered path is the name of some listed entry. -/
theorem gather_names_sub (env : Env) (es : List Entry) (nm : Str)
    (h : nm ∈ (gather_sources env es).1.map Prod.fst) : nm ∈ es.map Entry.name := by
  induction es with
  | nil => cases h
  | cons e rest ih =>
    by_cases he : e.isDir = true
    · rw [show gather_sources env (e :: rest) = gather_sources env rest by
        simp [gather_sources, he]] at h
      exact List.mem_cons_of_mem _ (ih h)
    · have he' : e.isDir = false := by simpa using he
      cases hr : READERS (lowerStr (pySuffix e.name)) with
      | none =>
        rw [show (gather_sources env (e :: rest)).1 = (gather_sources env rest).1 by
          simp [gather_sources, he', hr]] at h
        exact List.mem_cons_of_mem _ (ih h)
      | some rk =>
        cases hrun : runReader rk env e.name with
        | ok t0 =>
          rw [show (gather_sources env (e :: rest)).1 =
              (e.name, pyStrip t0) :: (gather_sources env rest).1 by
            simp [gather_sources, he', hr, hrun]] at h
          rcases List.mem_map.mp h with ⟨pr, hpr, hfst⟩
          rcases List.mem_cons.mp hpr with rfl | hmem
          · exact hfst ▸ List.mem_cons_self _ _
          · exact List.mem_cons_of_mem _ (ih (List.mem_map.mpr ⟨pr, hmem, hfst⟩))
        | error exc =>
          rw [show (gather_sources env (e :: rest)).1 = (gather_sources env rest).1 by
            simp [gather_sources, he', hr, hrun]] at h
          exact List.mem_cons_of_mem _ (ih h)

/-- An unrecognized non-directory entry ends up in unsupported. -/
theorem gather_unsupported_mem (env : Env) (es : List Entry) (ent : Entry)
    (hmem : ent ∈ es) (hdir : ent.isDir = false)
    (hr : READERS (lowerStr (pySuffix ent.name)) = none) :
    ent.name ∈ (gather_sources env es).2.1 := by
  induction es with
  | nil => cases hmem
  | cons e rest ih =>
    rcases List.mem_cons.mp hmem with rfl | hmem'
    · simp [gather_sources, hdir, hr]
    · have step := ih hmem'
      by_cases he : e.isDir = true
      · simpa [gather_sources, he] using step
      · have he' : e.isDir = false := by simpa using he
        cases hre : READERS (lowerStr (pySuffix e.name)) with
        | none => simp [gather_sources, he', hre, step]
        | some rk =>
          cases hrun : runReader rk env e.name with
          | ok t0 => simpa [gather_sources, he', hre, hrun] using step
          | error exc => simpa [gather_sources, he', hre, hrun] using step

/-- C5: the dispatch selects an extractor exactly when the
lower-cased extension is one of .docx, .pdf, .pptx, .txt, .md; a
non-directory entry with any other extension is recorded in
unsupported and, when the listing has no duplicate names, its path
never appears among the gathered results that feed the bundle. -/
theorem c5_extension_dispatch (name : Str) (env : Env) (es : List Entry) (ent : Entry) :
    ((READERS (lowerStr (pySuffix name))).isSome = true ↔
      lowerStr (pySuffix name) ∈ recognizedExts) ∧
    (ent ∈ es → ent.isDir = false → READERS (lowerStr (pySuffix ent.name)) = none →
      ent.name ∈ (gather_sources env es).2.1) ∧
    ((es.map Entry.name).Nodup → ent ∈ es → READERS (lowerStr (pySuffix ent.name)) = none →
      ¬ ent.name ∈ (gather_sources env es).1.map Prod.fst) := by
  refine ⟨?_, fun h1 h2 h3 => gather_unsupported_mem env es ent h1 h2 h3, ?_⟩
  · unfold READERS recognizedExts
    split_ifs with h1 h2 h3 h4 h5 <;> simp_all
  · intro hnd hmem hr hg
    induction es with
    | nil => cases hmem
    | cons e rest ih =>
      have hnd_rest : (rest.map Entry.name).Nodup := (List.nodup_cons.mp hnd).2
      have hhead : ¬ e.name ∈ rest.map Entry.name := (List.nodup_cons.mp hnd).1
      rcases List.mem_cons.mp hmem with rfl | hmem'
      · by_cases he : ent.isDir = true
        · rw [show gather_sources env (ent :: rest) = gather_sources env rest by
            simp [gather_sources, he]] at hg
          exact hhead (gather_names_sub env rest ent.name hg)
        · have he' : ent.isDir = false := by simpa using he
          rw [show (gather_sources env (ent :: rest)).1 = (gather_sources env rest).1 by
            simp [gather_sources, he', hr]] at hg
          exact hhead (gather_names_sub env rest ent.name hg)
      · by_cases he : e.isDir = true
        · rw [show gather_sources env (e :: rest) = gather_sources env rest by
            simp [gather_sources, he]] at hg
          exact ih hnd_rest hmem' hg
        · have he' : e.isDir = false := by simpa using he
          cases hre : READERS (lowerStr (pySuffix e.name)) with
          | none =>
            rw [show (gather_sources env (e :: rest)).1 = (gather_sources env rest).1 by
              simp [gather_sources, he', hre]] at hg
            exact ih hnd_rest hmem' hg
          | some rk =>
            cases hrun : runReader rk env e.name with
            | ok t0 =>
              rw [show (gather_sources env (e :: rest)).1 =
                  (e.name, pyStrip t0) :: (gather_sources env rest).1 by
                simp [gather_sources, he', hre, hrun]] at hg
              rcases List.mem_map.mp hg with ⟨pr, hpr, hfst⟩
              rcases List.mem_cons.mp hpr with rfl | hmm
              · have : ent.name = e.name := hfst.symm
                exact hhead (this ▸ List.mem_map.mpr ⟨ent, hmem', rfl⟩)
              · exact ih hnd_rest hmem' (List.mem_map.mpr ⟨pr, hmm, hfst⟩)
            | error exc =>
              rw [show (gather_sources env (e :: rest)).1 = (gather_sources env rest).1 by
                simp [gather_sources, he', hre, hrun]] at hg
              exact ih hnd_rest hmem' hg

/-- Rendering of one gathered entry as the claim describes it: a
heading holding the display name with every backtick replaced by a
right single quotation mark, then a fenced text block when the text is
non-empty or a placeholder notice when it is empty, then a blank
line. -/
def entryRenderLines (e : Str × Str) : List Str :=
  ( "### ".data ++ e.1.map (fun c => if c = Char.ofNat 96 then Char.ofNat 8217 else c)) ::
    (if e.2 = [] then [ "_No extractable text content found._".data ]
     else [ "```text".data, e.2, "```".data ]) ++ [ [] ]

/-- The per-entry loop of the Source Material section emits exactly
the blocks the claim describes, entry by entry. -/
theorem srcEntriesLines_eq (s : List (Str × Str)) :
    srcEntriesLines s = s.flatMap entryRenderLines := by
  induction s with
  | nil => rfl
  | cons e rest ih =>
    rcases e with ⟨p, t⟩
    by_cases h : t = []
    · simp [srcEntriesLines, entryRenderLines, sanitize_heading, h, ih]
    · simp [srcEntriesLines, entryRenderLines, sanitize_heading, h, ih]

/-- C7: with at least one gathered entry, the Source Material section
of build_bundle is its header followed by, for every entry in order, a
heading holding the sanitized display name and then either a fenced
text block with the extracted text or a placeholder notice for empty
text; and the sanitized name never holds a backtick. -/
theorem c7_source_rendering (s : List (Str × Str)) (nm : Str) :
    (¬ s = [] → srcSectionLines s = "## Source Material".data :: s.flatMap entryRenderLines) ∧
    ¬ Char.ofNat 96 ∈ sanitize_heading nm := by
  constructor
  · intro h
    rw [srcSectionLines, if_neg h, srcEntriesLines_eq]
  · intro hmem
    rcases List.mem_map.mp hmem with ⟨c, _, hc⟩
    by_cases h : c = Char.ofNat 96
    · simp only [h, if_pos rfl] at hc
      exact absurd hc (by decide)
    · simp only [if_neg h] at hc
      exact h hc

/-- C8: the brief loader returns the empty string, not an error, when
the path is absent, and for an existing file whose bytes decode as
UTF-8 it returns the decoded text stripped of surrounding whitespace. -/
theorem c8_brief_loader (env : Env) (p : Str) :
    (env.fs p = none → load_site_brief env p = Except.ok []) ∧
    (∀ (bs : List Nat) (s : Str), env.fs p = some bs → utf8DecodeStrict bs = some s →
      load_site_brief env p = Except.ok (pyStrip s)) := by
  constructor
  · intro h
    simp [load_site_brief, h]
  · intro bs s h1 h2
    simp [load_site_brief, h1, h2]

/-- C9: on an existing brief file whose bytes are not valid UTF-8 the
brief loader raises UnicodeDecodeError; the error is not caught
anywhere, so the run of main aborts with it; the plain-text extractor
on those same bytes instead drops the undecodable bytes and
succeeds. -/
theorem c9_strict_vs_lenient_decode (env : Env) (p : Str) (bs : List Nat)
    (h1 : env.fs p = some bs) (h2 : utf8DecodeStrict bs = none) :
    load_site_brief env p =
      Except.error (PyExc.libException "UnicodeDecodeError".data "invalid utf-8".data) ∧
    (env.dirExists = true →
      mainRun env p =
        Except.error (PyExc.libException "UnicodeDecodeError".data "invalid utf-8".data)) ∧
    read_plain_text env p = Except.ok (pyStrip (utf8DecodeIgnore bs)) := by
  have hload : load_site_brief env p =
      Except.error (PyExc.libException "UnicodeDecodeError".data "invalid utf-8".data) := by
    simp [load_site_brief, h1, h2]
  refine ⟨hload, ?_, ?_⟩
  · intro hdir
    simp [mainRun, hdir, hload]
  · simp [read_plain_text, h1]

/-- The joined bundle text after the timestamp line: the empty third
line, the brief section and the source section. -/
def bundleTail (b : Str) (s : List (Str × Str)) : Str :=
  joinSep [ '\n' ] ([] :: (briefLines b ++ srcSectionLines s))

/-- The lines of the generated bundle below the timestamp line; they
do not depend on the timestamp. -/
def restLinesBB (b : Str) (s : List (Str × Str)) : List Str :=
  splitNl (stripRight (bundleTail b s) ++ [ '\n' ])

/-- The newline join of the bundle lines, decomposed around the
timestamp. -/
theorem joinNl_bundleLines (ts b : Str) (s : List (Str × Str)) :
    joinNl (bundleLines ts b s) =
      titleLine ++ [ '\n' ] ++ ((generatedLabel ++ ts) ++ [ '\n' ] ++ bundleTail b s) := by
  unfold joinNl bundleLines
  rw [joinSep_cons₂, joinSep_cons₂]
  rfl

/-- Some line of the bundle tail holds a hash mark. -/
theorem bundleTail_has_hash (b : Str) (s : List (Str × Str)) :
    ∃ c ∈ bundleTail b s, isPySpace c = false := by
  have hb' : ∃ l, l ∈ ([] :: (briefLines b ++ srcSectionLines s)) ∧ '#' ∈ l := by
    by_cases hb : b = []
    · refine ⟨ "## Site Brief".data, List.mem_cons_of_mem _ (List.mem_append_left _ ?_), by decide⟩
      rw [briefLines, if_pos hb]
      exact List.mem_cons_self _ _
    · refine ⟨ "## Site Brief (`request/site-brief.yaml`)".data,
        List.mem_cons_of_mem _ (List.mem_append_left _ ?_), by decide⟩
      rw [briefLines, if_neg hb]
      exact List.mem_cons_self _ _
  rcases hb' with ⟨l, hl, hc⟩
  exact ⟨'#', mem_joinSep [ '\n' ] _ hl hc, by decide⟩

/-- C2: the generated bundle, split into lines, is the title line,
then the line "Generated: " followed by the timestamp, then a tail of
lines that does not depend on the timestamp.  build_bundle is a plain
function of (timestamp, brief text, source list), so identical inputs
give byte-identical output, and two runs differing only in the
timestamp produce bundles that differ only in this one line. -/
theorem c2_bundle_deterministic (b : Str) (s : List (Str × Str)) (ts : Str)
    (hts : ∀ c ∈ ts, ¬ c = '\n') :
    splitNl (build_bundle ts b s) =
      titleLine :: (generatedLabel ++ ts) :: restLinesBB b s := by
  have h1 : stripLeft (joinNl (bundleLines ts b s)) = joinNl (bundleLines ts b s) := by
    rw [joinNl_bundleLines]
    have hshape : titleLine ++ [ '\n' ] ++ ((generatedLabel ++ ts) ++ [ '\n' ] ++ bundleTail b s) =
        '#' :: (" Website Request Bundle".data ++ [ '\n' ] ++
          ((generatedLabel ++ ts) ++ [ '\n' ] ++ bundleTail b s)) := rfl
    rw [hshape]
    exact stripLeft_cons_of_not _ (by decide)
  have h2 : stripRight (joinNl (bundleLines ts b s)) =
      (titleLine ++ [ '\n' ] ++ ((generatedLabel ++ ts) ++ [ '\n' ])) ++
        stripRight (bundleTail b s) := by
    rw [joinNl_bundleLines]
    have hassoc : titleLine ++ [ '\n' ] ++ ((generatedLabel ++ ts) ++ [ '\n' ] ++ bundleTail b s) =
        (titleLine ++ [ '\n' ] ++ ((generatedLabel ++ ts) ++ [ '\n' ])) ++ bundleTail b s := by
      simp [List.append_assoc]
    rw [hassoc, stripRight_append _ (bundleTail_has_hash b s)]
  have h3 : build_bundle ts b s =
      titleLine ++ '\n' :: ((generatedLabel ++ ts) ++ '\n' ::
        (stripRight (bundleTail b s) ++ [ '\n' ])) := by
    show pyStrip (joinNl (bundleLines ts b s)) ++ [ '\n' ] = _
    rw [pyStrip, h1, h2]
    simp [List.append_assoc]
  have hgen : ∀ c ∈ generatedLabel ++ ts, ¬ c = '\n' := by
    intro c hc
    rcases List.mem_append.mp hc with h | h
    · exact (by decide : ∀ d ∈ generatedLabel, ¬ d = '\n') c h
    · exact hts c h
  rw [h3, splitNl_append_nl _ (by decide : ∀ c ∈ titleLine, ¬ c = '\n'),
    splitNl_append_nl _ hgen]
  rfl

/-- A small concrete world used to evaluate the theorems: python-docx
and the pdf libraries are missing, python-pptx is present, and the
source directory holds a text file, a subdirectory, an unsupported
file and a docx file. -/
def envW : Env where
  docxAvailable := false
  pypdfAvailable := false
  pypdf2Available := false
  pptxAvailable := true
  parseDocx := fun _ => Except.error (PyExc.libException "X".data "x".data)
  parsePdf := fun _ => Except.ok []
  parsePptx := fun _ => Except.ok [ [ ⟨true, "hi".data⟩ ] ]
  fs := fun q =>
    if q = "notes.txt".data then some ( "  Hi there ".data.map Char.toNat)
    else if q = "bad.yaml".data then some [255]
    else if q = "brief.yaml".data then some ( " goal: test".data.map Char.toNat)
    else none
  dirExists := true
  listing :=
    [ ⟨ "notes.txt".data, false⟩, ⟨ "sub".data, true⟩,
      ⟨ "skip.csv".data, false⟩, ⟨ "b.docx".data, false⟩ ]
  now := "2026-02-18T00:00:00+00:00".data

/-- Evaluation of the C1 partition on the concrete world. -/
theorem c1_witness :
    ((gather_sources envW envW.listing).1.map Prod.fst ++ (gather_sources envW envW.listing).2.1 ++
        (gather_sources envW envW.listing).2.2.map Prod.fst).Perm
      ((envW.listing.filter (fun e => !e.isDir)).map Entry.name) ∧
    ¬ ( "notes.txt".data ∈ (gather_sources envW envW.listing).1.map Prod.fst ∧
        "notes.txt".data ∈ (gather_sources envW envW.listing).2.1) :=
  ⟨(c1_gather_partition envW envW.listing).1,
   ((c1_gather_partition envW envW.listing).2 (by decide) "notes.txt".data).1⟩

/-- The concrete timestamp used to evaluate the C2 decomposition. -/
def tsW : Str := "2026-02-18T00:00:00+00:00".data

/-- Evaluation of the C2 line decomposition at a concrete timestamp. -/
theorem c2_witness :
    (∀ c ∈ tsW, ¬ c = '\n') ∧
    splitNl (build_bundle tsW [] []) = titleLine :: (generatedLabel ++ tsW) :: restLinesBB [] [] :=
  ⟨by decide, c2_bundle_deterministic [] [] tsW (by decide)⟩

/-- Evaluation of the C4 amended claim on the concrete world: the
dependency errors of read_docx and read_pdf, and the gatherer catching
the docx failure and recording it. -/
theorem c4_witness :
    read_docx envW "b.docx".data =
      Except.error (PyExc.runtimeError docxDepMsg (some "docx".data)) ∧
    read_pdf envW "x.pdf".data =
      Except.error (PyExc.runtimeError pdfDepMsg (some "PyPDF2".data)) ∧
    gather_sources envW [ ⟨ "b.docx".data, false⟩ ] =
      ([], [], [ ( "b.docx".data, PyExc.runtimeError docxDepMsg (some "docx".data)) ]) :=
  ⟨((c4_error_amended envW "b.docx".data).1 rfl).1,
   ((c4_error_amended envW "x.pdf".data).2.1 rfl rfl).1,
   (c4_error_amended envW "b.docx".data).2.2.2.2.2.2
     ⟨ "b.docx".data, false⟩ [] ReaderKind.docx
     (PyExc.runtimeError docxDepMsg (some "docx".data)) rfl (by decide) rfl⟩

/-- Evaluation of the C5 dispatch facts on the concrete world. -/
theorem c5_witness :
    ((READERS (lowerStr (pySuffix "X.MD".data))).isSome = true ↔
      lowerStr (pySuffix "X.MD".data) ∈ recognizedExts) ∧
    "skip.csv".data ∈ (gather_sources envW envW.listing).2.1 ∧
    ¬ "skip.csv".data ∈ (gather_sources envW envW.listing).1.map Prod.fst :=
  ⟨(c5_extension_dispatch "X.MD".data envW envW.listing ⟨ "skip.csv".data, false⟩).1,
   (c5_extension_dispatch "X.MD".data envW envW.listing ⟨ "skip.csv".data, false⟩).2.1
     (by decide) rfl (by decide),
   (c5_extension_dispatch "X.MD".data envW envW.listing ⟨ "skip.csv".data, false⟩).2.2
     (by decide) (by decide) (by decide)⟩

/-- Evaluation of the C7 rendering on the example of the spec: a file
name holding a backtick, with non-empty text. -/
theorem c7_witness :
    ¬ ([ ( "a`b.txt".data, "hello".data) ] = ([] : List (Str × Str))) ∧
    srcSectionLines [ ( "a`b.txt".data, "hello".data) ] =
      "## Source Material".data :: [ ( "a`b.txt".data, "hello".data) ].flatMap entryRenderLines :=
  ⟨by decide,
   (c7_source_rendering [ ( "a`b.txt".data, "hello".data) ] "a`b.txt".data).1 (by decide)⟩

/-- Evaluation of the C8 brief loader on an absent path and on an
existing decodable brief. -/
theorem c8_witness :
    load_site_brief envW "missing.yaml".data = Except.ok [] ∧
    load_site_brief envW "brief.yaml".data = Except.ok (pyStrip " goal: test".data) :=
  ⟨(c8_brief_loader envW "missing.yaml".data).1 (by decide),
   (c8_brief_loader envW "brief.yaml".data).2 ( " goal: test".data.map Char.toNat)
     " goal: test".data (by decide) (by decide)⟩

/-- Evaluation of the C9 decode contrast on a one-byte invalid file. -/
theorem c9_witness :
    load_site_brief envW "bad.yaml".data =
      Except.error (PyExc.libException "UnicodeDecodeError".data "invalid utf-8".data) ∧
    mainRun envW "bad.yaml".data =
      Except.error (PyExc.libException "UnicodeDecodeError".data "invalid utf-8".data) ∧
    read_plain_text envW "bad.yaml".data = Except.ok (pyStrip (utf8DecodeIgnore [255])) :=
  ⟨(c9_strict_vs_lenient_decode envW "bad.yaml".data [255] (by decide) (by decide)).1,
   (c9_strict_vs_lenient_decode envW "bad.yaml".data [255] (by decide) (by decide)).2.1 rfl,
   (c9_strict_vs_lenient_decode envW "bad.yaml".data [255] (by decide) (by decide)).2.2⟩

/-- Evaluation of the C10 invariant on the gathered text file of the
concrete world. -/
theorem c10_witness :
    ( "notes.txt".data, "Hi there".data) ∈ (gather_sources envW envW.listing).1 ∧
    pyStrip "Hi there".data = "Hi there".data :=
  ⟨by decide,
   c10_gathered_stripped envW envW.listing "notes.txt".data "Hi there".data (by decide)⟩
